import Mathlib

/-!
Shallow embedding of the `EditorService` of the `studio` repository
(`src/services/editor.service.tsx`) and proofs about its behaviour.

The service maintains three per-resource caches (text-model handles,
view-state snapshots, decoration handle lists), converts parser
diagnostics into monaco markers and decorations, and debounces
content-change events into parse calls.

JavaScript `Map<string, α>` values are embedded as association lists
`List (κ × α)` with the operations `mlookup`, `mset`, `mremove` below.
Machine integers do not overflow in any modelled computation, so `Nat`
is used throughout.
-/

section AssocList

variable {κ α : Type} [DecidableEq κ]

/-- `Map.get`: first binding of the key, if any. -/
def mlookup : List (κ × α) → κ → Option α
  | [], _ => none
  | (k, v) :: rest, key => if k = key then some v else mlookup rest key

/-- `Map.set`: replace the binding of the key, or append a new one. -/
def mset : List (κ × α) → κ → α → List (κ × α)
  | [], key, v => [(key, v)]
  | (k, w) :: rest, key, v =>
      if k = key then (k, v) :: rest else (k, w) :: mset rest key v

/-- `Map.delete`: remove the binding of the key. -/
def mremove : List (κ × α) → κ → List (κ × α)
  | [], _ => []
  | (k, w) :: rest, key =>
      if k = key then rest else (k, w) :: mremove rest key

theorem mlookup_mset_self (m : List (κ × α)) (k : κ) (v : α) :
    mlookup (mset m k v) k = some v := by
  induction m with
  | nil => simp [mset, mlookup]
  | cons hd tl ih =>
      obtain ⟨k', v'⟩ := hd
      by_cases h : k' = k <;> simp [mset, mlookup, h, ih]

theorem mlookup_mset_ne (m : List (κ × α)) (k k' : κ) (v : α) (h : k ≠ k') :
    mlookup (mset m k v) k' = mlookup m k' := by
  induction m with
  | nil => simp [mset, mlookup, h]
  | cons hd tl ih =>
      obtain ⟨k₀, v₀⟩ := hd
      by_cases h0 : k₀ = k
      · subst h0; simp [mset, mlookup, h]
      · simp [mset, mlookup, h0, ih]

theorem mlookup_eq_none_of_not_mem_keys (m : List (κ × α)) (k : κ)
    (h : k ∉ m.map Prod.fst) : mlookup m k = none := by
  induction m with
  | nil => simp [mlookup]
  | cons hd tl ih =>
      obtain ⟨k₀, v₀⟩ := hd
      simp only [List.map_cons, List.mem_cons, not_or] at h
      have hne : ¬k₀ = k := fun he => h.1 he.symm
      simp [mlookup, hne, ih h.2]

theorem mlookup_mremove_self (m : List (κ × α)) (k : κ)
    (hnd : (m.map Prod.fst).Nodup) : mlookup (mremove m k) k = none := by
  induction m with
  | nil => simp [mremove, mlookup]
  | cons hd tl ih =>
      obtain ⟨k₀, v₀⟩ := hd
      simp only [List.map_cons, List.nodup_cons] at hnd
      by_cases h0 : k₀ = k
      · subst h0
        simpa [mremove] using mlookup_eq_none_of_not_mem_keys tl k₀ hnd.1
      · simp [mremove, mlookup, h0, ih hnd.2]

end AssocList

/-! ### Diagnostics and their conversion to markers and decorations

`DiagnosticSeverity` (from `@asyncapi/parser`, a numeric enum) and
`MarkerSeverity` (from `monaco-editor`) are embedded as `Nat` with the
enum's numeric values, since the TypeScript runtime values are numbers
and an out-of-enum number can occur (the `default` branches). -/

namespace DiagnosticSeverity

def Error : Nat := 0
def Warning : Nat := 1
def Information : Nat := 2
def Hint : Nat := 3

end DiagnosticSeverity

namespace MarkerSeverity

def Hint : Nat := 1
def Info : Nat := 2
def Warning : Nat := 4
def Error : Nat := 8

end MarkerSeverity

/-- A zero-based line/character position of a diagnostic range. -/
structure DiagPosition where
  line : Nat
  character : Nat
deriving DecidableEq, Repr

/-- A diagnostic's half-open `[start, end)` range. -/
structure DiagRange where
  start : DiagPosition
  stop : DiagPosition
deriving DecidableEq, Repr

/-- A parser diagnostic: severity, range and message. -/
structure Diagnostic where
  severity : Nat
  range : DiagRange
  message : String
deriving DecidableEq, Repr

/-- monaco's one-based `Range` as constructed in `createMarkersAndDecorations`. -/
structure MonacoRange where
  startLineNumber : Nat
  startColumn : Nat
  endLineNumber : Nat
  endColumn : Nat
deriving DecidableEq, Repr

/-- `IModelDecoration` options used by the service: glyph class and hover text. -/
structure DecorationOptions where
  glyphMarginClassName : String
  glyphMarginHoverMessage : String
deriving DecidableEq, Repr

/-- `IModelDecoration` as pushed by `createMarkersAndDecorations`. -/
structure ModelDecoration where
  id : String
  ownerId : Nat
  range : MonacoRange
  options : DecorationOptions
deriving DecidableEq, Repr

/-- `IMarkerData` as pushed by `createMarkersAndDecorations`. -/
structure MarkerData where
  startLineNumber : Nat
  startColumn : Nat
  endLineNumber : Nat
  endColumn : Nat
  severity : Nat
  message : String
deriving DecidableEq, Repr

/-- `EditorService.getSeverity`: map a diagnostic severity to monaco's
`MarkerSeverity`, defaulting to `Error`. -/
def getSeverity (severity : Nat) : Nat :=
  if severity = DiagnosticSeverity.Error then MarkerSeverity.Error
  else if severity = DiagnosticSeverity.Warning then MarkerSeverity.Warning
  else if severity = DiagnosticSeverity.Information then MarkerSeverity.Info
  else if severity = DiagnosticSeverity.Hint then MarkerSeverity.Hint
  else MarkerSeverity.Error

/-- `EditorService.getSeverityClassName`: map a diagnostic severity to a CSS
class, defaulting to `diagnostic-warning`. -/
def getSeverityClassName (severity : Nat) : String :=
  if severity = DiagnosticSeverity.Warning then "diagnostic-warning"
  else if severity = DiagnosticSeverity.Information then "diagnostic-information"
  else if severity = DiagnosticSeverity.Hint then "diagnostic-hint"
  else "diagnostic-warning"

/-- The `forEach` body of `EditorService.createMarkersAndDecorations`,
run over the list with its running index `idx`.  A diagnostic with
severity other than `Error` becomes a glyph decoration; an `Error`
diagnostic becomes a marker.  All coordinates are incremented by 1. -/
def createMarkersAndDecorationsGo (idx : Nat) :
    List Diagnostic → List ModelDecoration × List MarkerData
  | [] => ([], [])
  | d :: rest =>
      let (decos, markers) := createMarkersAndDecorationsGo (idx + 1) rest
      if d.severity ≠ DiagnosticSeverity.Error then
        let className := getSeverityClassName d.severity
        ({ id := className ++ "-" ++ toString idx
           ownerId := 0
           range := { startLineNumber := d.range.start.line + 1
                      startColumn := d.range.start.character + 1
                      endLineNumber := d.range.stop.line + 1
                      endColumn := d.range.stop.character + 1 }
           options := { glyphMarginClassName := getSeverityClassName d.severity
                        glyphMarginHoverMessage := d.message } } :: decos,
         markers)
      else
        (decos,
         { startLineNumber := d.range.start.line + 1
           startColumn := d.range.start.character + 1
           endLineNumber := d.range.stop.line + 1
           endColumn := d.range.stop.character + 1
           severity := getSeverity d.severity
           message := d.message } :: markers)

/-- `EditorService.createMarkersAndDecorations` over the full diagnostics
list, returning `(decorations, markers)`. -/
def createMarkersAndDecorations (diagnostics : List Diagnostic) :
    List ModelDecoration × List MarkerData :=
  createMarkersAndDecorationsGo 0 diagnostics

/-! ### The service state

The `EditorService` fields that the modelled operations touch:
`models`, `viewStates`, `decorations` (the three `Map`s), and
`instance` (the monaco editor widget).  A monaco `ITextModel` is
embedded as a record carrying a distinct instance id (`TextModel.ref`),
so that "same handle instance" is expressible; `monaco.editor.createModel`
hands out a fresh `ref` from the `nextModelRef` counter.  A view state
(`ICodeEditorViewState`) is opaque and embedded as `Nat`.  Decoration
handles returned by `editor.deltaDecorations` are `Nat`s from the
widget's `nextDecoHandle` counter. -/

/-- A `File` record of the files registry (the fields the service reads). -/
structure File where
  uri : String
  content : String
  language : String
  modified : Bool
deriving DecidableEq, Repr

/-- A monaco `ITextModel` handle.  `ref` is the object identity. -/
structure TextModel where
  ref : Nat
  uri : String
  content : String
  language : String
deriving DecidableEq, Repr

/-- The monaco editor widget (`this.instance`): the bound model, the live
interactive view state, per-owner markers, visible decorations keyed by
their handles, and the fresh-handle counter. -/
structure Widget where
  model : Option TextModel
  viewState : Nat
  markers : List (String × List MarkerData)
  visible : List (Nat × ModelDecoration)
  nextDecoHandle : Nat
deriving DecidableEq, Repr

/-- The mutable state of the `EditorService` together with the
collaborators it reads and writes: the files registry, the socket trace
(contents sent via `socketClientSvc.send`), and local storage. -/
structure EditorState where
  files : List (String × File)
  models : List (String × TextModel)
  viewStates : List (String × Nat)
  decorations : List (String × List Nat)
  widget : Option Widget
  nextModelRef : Nat
  socketSent : List String
  localStorage : Option String
deriving DecidableEq, Repr

/-- `EditorService.createModel`: no-op if a model for `uri` is cached;
otherwise looks the file up (unless one is passed) and creates a fresh
monaco model, caching it under `uri`. -/
def createModel (uri : String) (file? : Option File) (s : EditorState) :
    Option TextModel × EditorState :=
  if (mlookup s.models uri).isSome then (none, s)
  else
    match file?.orElse fun _ => mlookup s.files uri with
    | none => (none, s)
    | some f =>
        let m : TextModel :=
          { ref := s.nextModelRef, uri := f.uri, content := f.content,
            language := f.language }
        (some m,
         { s with models := mset s.models uri m,
                  nextModelRef := s.nextModelRef + 1 })

/-- `EditorService.getModel`: the cached model for `uri`, else create one. -/
def getModel (uri : String) (s : EditorState) :
    Option TextModel × EditorState :=
  match mlookup s.models uri with
  | some m => (some m, s)
  | none => createModel uri none s

/-- `EditorService.getCurrentModel`: the widget's bound model, if any. -/
def getCurrentModel (s : EditorState) : Option TextModel :=
  s.widget.bind fun w => w.model

/-- `EditorService.removeModel`: dispose the cached model for `uri` and
evict the cache entry; no-op when absent. -/
def removeModel (uri : String) (s : EditorState) : EditorState :=
  match mlookup s.models uri with
  | none => s
  | some _ => { s with models := mremove s.models uri }

/-- The handles `start, start+1, …, start+n-1` handed out by
`deltaDecorations` for `n` new decorations. -/
def freshHandles : Nat → Nat → List Nat
  | _, 0 => []
  | start, n + 1 => start :: freshHandles (start + 1) n

/-- monaco's `editor.deltaDecorations`: remove the decorations owned by
the old handles, install the new decorations under fresh handles, and
return the fresh handle list. -/
def deltaDecorations (old : List Nat) (news : List ModelDecoration)
    (w : Widget) : List Nat × Widget :=
  let handles := freshHandles w.nextDecoHandle news.length
  (handles,
   { w with
       visible := w.visible.filter (fun p => ¬ p.1 ∈ old) ++ handles.zip news
       nextDecoHandle := w.nextDecoHandle + news.length })

/-- monaco's `editor.setModelMarkers`, keyed by the owner string (the
service passes the resource `uri` as owner). -/
def setModelMarkers (uri : String) (markers : List MarkerData)
    (w : Widget) : Widget :=
  { w with markers := mset w.markers uri markers }

/-- A `Document` as delivered by the documents events: its uri and the
filtered diagnostics list. -/
structure Document where
  uri : String
  diagnosticsFiltered : List Diagnostic
deriving DecidableEq, Repr

/-- `EditorService.applyMarkersAndDecorations`: look the model up (creating
it if needed); if model and editor exist, convert the document's filtered
diagnostics, fully replace `uri`'s markers, run the decoration delta
against the previously stored handle list for `uri`, and store the
returned handle list under `uri`. -/
def applyMarkersAndDecorations (doc : Document) (s : EditorState) :
    EditorState :=
  let (m?, s1) := getModel doc.uri s
  match m?, s1.widget with
  | some _, some w =>
      let (decos, markers) := createMarkersAndDecorations doc.diagnosticsFiltered
      let w1 := setModelMarkers doc.uri markers w
      let old := (mlookup s1.decorations doc.uri).getD []
      let (newHandles, w2) := deltaDecorations old decos w1
      { s1 with widget := some w2,
                decorations := mset s1.decorations doc.uri newHandles }
  | _, _ => s1

/-- `EditorService.removeMarkersAndDecorations`: same as apply, with empty
marker and decoration lists. -/
def removeMarkersAndDecorations (doc : Document) (s : EditorState) :
    EditorState :=
  let (m?, s1) := getModel doc.uri s
  match m?, s1.widget with
  | some _, some w =>
      let w1 := setModelMarkers doc.uri [] w
      let old := (mlookup s1.decorations doc.uri).getD []
      let (newHandles, w2) := deltaDecorations old [] w1
      { s1 with widget := some w2,
                decorations := mset s1.decorations doc.uri newHandles }
  | _, _ => s1

/-- The `fs.file.remove` handler installed by
`EditorService.subscribeToFiles`: it calls `removeModel` on the removed
file's uri — and nothing else. -/
def onFileRemove (uri : String) (s : EditorState) : EditorState :=
  removeModel uri s

/-- The `documents.document.remove` handler installed by
`EditorService.subcribeToDocuments`: it calls
`removeMarkersAndDecorations`. -/
def onDocumentRemove (doc : Document) (s : EditorState) : EditorState :=
  removeMarkersAndDecorations doc s

/-- `EditorService.onChangeTab`: save the current model's view state under
its uri, then look the new tab's model up; if found, bind the widget to
it and restore its saved view state if one exists.  (The widget is
present whenever this runs; with no widget the binding step cannot
happen and the state is returned as is.) -/
def onChangeTab (newTabUri : String) (s : EditorState) : EditorState :=
  let s0 :=
    match getCurrentModel s, s.widget with
    | some oldModel, some w =>
        { s with viewStates := mset s.viewStates oldModel.uri w.viewState }
    | _, _ => s
  let (m?, s1) := getModel newTabUri s0
  match m?, s1.widget with
  | some m, some w =>
      let w1 := { w with model := some m }
      match mlookup s1.viewStates m.uri with
      | some vs => { s1 with widget := some { w1 with viewState := vs } }
      | none => { s1 with widget := some w1 }
  | _, _ => s1

/-! ### `updateState`

The TypeScript parameter `content` can be a non-string value at runtime
(the `typeof content !== 'string'` guard), embedded as `JsVal`.
The `file` parameter is a `Partial<File>`; the fields the modelled
claims can observe are embedded in `FilePatch`, an absent field being
`none`.  `formatSvc.retrieveLangauge` and `filesSvc.updateFile` live
outside the given sources: the former is passed in as an abstract
function, the latter is modelled from the spec. -/

/-- A JavaScript value that is either a string or not. -/
inductive JsVal where
  | str (s : String)
  | nonString
deriving DecidableEq, Repr

/-- A `Partial<File>` patch; `none` marks an absent field. -/
structure FilePatch where
  language : Option String := none
  content : Option String := none
  modified : Option Bool := none
deriving DecidableEq, Repr

/-- Apply a patch to a file record: present fields override. -/
def applyPatch (f : File) (p : FilePatch) : File :=
  { uri := f.uri
    content := p.content.getD f.content
    language := p.language.getD f.language
    modified := p.modified.getD f.modified }

/-- Modelled from the spec: `filesSvc.updateFile` (the resource
registry's `updateResource(id, patch)`, §6), whose source is not among
the given files.  It merges the patch into the registry entry for `id`;
the core "never originates or deletes resource records" (§3), so a
missing entry is left alone. -/
def updateFile (uri : String) (p : FilePatch) (s : EditorState) :
    EditorState :=
  match mlookup s.files uri with
  | none => s
  | some f => { s with files := mset s.files uri (applyPatch f p) }

/-- `model.setValue(content)` on the widget's bound model. -/
def setEditorModelValue (c : String) (s : EditorState) : EditorState :=
  match s.widget with
  | none => s
  | some w =>
      match w.model with
      | none => s
      | some m =>
          { s with widget := some { w with model := some { m with content := c } } }

/-- `EditorService.updateState`: bail out when the content equals the
`asyncapi` file's current content or is not a string, or when no
language can be determined; otherwise optionally send to the socket,
optionally rewrite the editor model, and update the `asyncapi` file.
`retrieveLangauge` abstracts `formatSvc.retrieveLangauge`. -/
def updateState (retrieveLangauge : String → Option String)
    (content : JsVal) (updateModel sendToServer : Bool) (file : FilePatch)
    (s : EditorState) : EditorState :=
  let currentContent := (mlookup s.files "asyncapi").map (·.content)
  match content with
  | .nonString => s
  | .str c =>
      if currentContent = some c then s
      else
        match (file.language).orElse fun _ => retrieveLangauge c with
        | none => s
        | some lang =>
            let s1 := if sendToServer then { s with socketSent := s.socketSent ++ [c] } else s
            let s2 := if updateModel ∧ s1.widget.isSome then setEditorModelValue c s1 else s1
            updateFile "asyncapi"
              { language := some (file.language.getD lang)
                content := some (file.content.getD c)
                modified := some (file.modified.getD (decide (s2.localStorage ≠ some c))) }
              s2

/-! ### The debounced content-change synchronizer

`EditorService.onChangeContent(settings)` wraps the parse dispatch in
`debounce(cb, settings.editor.savingDelay)`; the `debounce` helper comes
from `../helpers`, whose source is not among the given files. -/

/-- The `editor` sub-tree of the settings state (fields the service reads). -/
structure EditorSettings where
  autoSaving : Bool
  savingDelay : Nat
deriving DecidableEq, Repr

/-- The settings state: the editor sub-tree and an opaque governance
sub-tree (compared with `isDeepEqual`, embedded as equality). -/
structure SettingsState where
  editor : EditorSettings
  governance : Nat
deriving DecidableEq, Repr

/-- Modelled from the spec: the `debounce` helper from `../helpers`,
whose source is not among the given files — "a scheduled, cancelable
future action … scheduling a new debounce timer implicitly cancels any
pending one" (§5, §9).  The debounced handler's run is embedded as a
timed state: the buffer's current content, the pending fire time, and
the trace of `parserSvc.parse` calls `(time, content)` dispatched so
far.  The callback reads the model's value at fire time. -/
structure SyncState where
  content : String
  pending : Option Nat
  parseCalls : List (Nat × String)
deriving DecidableEq, Repr

/-- One content-change event at time `t` leaving the buffer at `c`:
a pending timer that was due fires first (dispatching the parse call
with the buffer content at fire time), then the debounced handler
cancels any pending timer and schedules a new fire at `t + delay`. -/
def stepEdit (delay t : Nat) (c : String) (st : SyncState) : SyncState :=
  let st1 :=
    match st.pending with
    | some f =>
        if f ≤ t then
          { st with pending := none, parseCalls := st.parseCalls ++ [(f, st.content)] }
        else st
    | none => st
  { st1 with content := c, pending := some (t + delay) }

/-- Run a timeline of content-change events `(tᵢ, cᵢ)` in order. -/
def runEdits (delay : Nat) (edits : List (Nat × String)) (st : SyncState) :
    SyncState :=
  edits.foldl (fun st e => stepEdit delay e.1 e.2 st) st

/-- Let the pending timer, if any, fire after the timeline ends. -/
def settle (st : SyncState) : SyncState :=
  match st.pending with
  | some f => { st with pending := none, parseCalls := st.parseCalls ++ [(f, st.content)] }
  | none => st

/-- The events are in strictly increasing times and each one arrives
before the previous one's debounce timer fires (all within one window). -/
def withinWindow (delay : Nat) : List (Nat × String) → Bool
  | [] => true
  | [_] => true
  | (t₁, _) :: (t₂, c₂) :: rest =>
      t₁ < t₂ && t₂ < t₁ + delay && withinWindow delay ((t₂, c₂) :: rest)

/-- The content-change subscription together with the settings source:
`subDelay` is the delay captured by `debounce` when the subscription
was built; `settings` is what `settingsSvc.get()` currently returns. -/
structure SyncSystem where
  settings : SettingsState
  subDelay : Nat
  sync : SyncState
deriving DecidableEq, Repr

/-- `EditorService.configureEditor`: build the initial content-change
subscription, capturing `settings.editor.savingDelay` in the debounce. -/
def configureEditor (settings : SettingsState) (st : SyncState) : SyncSystem :=
  { settings := settings, subDelay := settings.editor.savingDelay, sync := st }

/-- The `settings.update` handler installed by `configureEditor`: if the
governance sub-trees are deeply equal the subscription is kept;
otherwise it is disposed and rebuilt from `settingsSvc.get()`,
capturing the new delay. -/
def onSettingsUpdate (newSettings : SettingsState) (sys : SyncSystem) :
    SyncSystem :=
  let prev := sys.settings
  let sys1 := { sys with settings := newSettings }
  if newSettings.governance = prev.governance then sys1
  else { sys1 with subDelay := newSettings.editor.savingDelay }

/-- A content-change event reaching the live subscription: the debounced
handler runs with the delay captured at subscription build time. -/
def sysEdit (t : Nat) (c : String) (sys : SyncSystem) : SyncSystem :=
  { sys with sync := stepEdit sys.subDelay t c sys.sync }

/-! ### Helper lemmas -/

theorem mlookup_append {κ α : Type} [DecidableEq κ]
    (l₁ l₂ : List (κ × α)) (k : κ) :
    mlookup (l₁ ++ l₂) k = (mlookup l₁ k).orElse fun _ => mlookup l₂ k := by
  induction l₁ with
  | nil => simp [mlookup]
  | cons hd tl ih =>
      obtain ⟨k₀, v₀⟩ := hd
      by_cases h : k₀ = k <;> simp [mlookup, h, ih]

theorem mem_freshHandles (h start n : Nat) :
    h ∈ freshHandles start n ↔ start ≤ h ∧ h < start + n := by
  induction n generalizing start with
  | zero => simp [freshHandles]
  | succ n ih =>
      simp only [freshHandles, List.mem_cons, ih]
      omega

theorem freshHandles_length (start n : Nat) :
    (freshHandles start n).length = n := by
  induction n generalizing start with
  | zero => rfl
  | succ n ih => simp [freshHandles, ih]

/-- Looking each fresh handle up in the zip of the fresh handles with a
list of the same length recovers that list. -/
theorem map_mlookup_zip_freshHandles {α : Type} [DecidableEq α]
    (start : Nat) (vs : List α) :
    (freshHandles start vs.length).map
        (fun h => mlookup ((freshHandles start vs.length).zip vs) h) =
      vs.map some := by
  induction vs generalizing start with
  | nil => simp [freshHandles]
  | cons v vs ih =>
      simp only [List.length_cons, freshHandles, List.zip_cons_cons,
        List.map_cons, mlookup, if_pos rfl]
      refine congrArg (some v :: ·) ?_
      have hcongr :
          (freshHandles (start + 1) vs.length).map
              (fun h => mlookup ((start, v) ::
                (freshHandles (start + 1) vs.length).zip vs) h) =
            (freshHandles (start + 1) vs.length).map
              (fun h => mlookup ((freshHandles (start + 1) vs.length).zip vs) h) := by
        refine List.map_congr_left fun h hmem => ?_
        have hge := (mem_freshHandles h (start + 1) vs.length).mp hmem
        have : ¬ start = h := by omega
        simp [mlookup, this]
      exact hcongr.trans (ih (start + 1))

/-- Filtering a map by "key not in `old`" makes every `old` key unfindable. -/
theorem mlookup_filter_mem_none {α : Type}
    (l : List (Nat × α)) (old : List Nat) (h : Nat) (hmem : h ∈ old) :
    mlookup (l.filter fun p => ¬ p.1 ∈ old) h = none := by
  induction l with
  | nil => simp [mlookup]
  | cons hd tl ih =>
      by_cases hk : hd.1 ∈ old
      · simp only [List.filter_cons, decide_eq_true_eq]
        rw [if_neg (by simp [hk])]
        exact ih
      · simp only [List.filter_cons, decide_eq_true_eq]
        rw [if_pos (by simp [hk])]
        have hne : ¬ hd.1 = h := fun he => hk (he ▸ hmem)
        obtain ⟨k₀, v₀⟩ := hd
        simp only [mlookup, if_neg hne]
        exact ih

/-- Every key of the zip of a handle list with values is one of the handles. -/
theorem mlookup_zip_none_of_not_mem {α : Type}
    (hs : List Nat) (vs : List α) (h : Nat) (hnot : ¬ h ∈ hs) :
    mlookup (hs.zip vs) h = none := by
  induction hs generalizing vs with
  | nil => simp [mlookup]
  | cons a hs ih =>
      cases vs with
      | nil => simp [mlookup]
      | cons v vs =>
          simp only [List.mem_cons, not_or] at hnot
          have hne : ¬ a = h := fun he => hnot.1 he.symm
          simp only [List.zip_cons_cons, mlookup, if_neg hne]
          exact ih vs hnot.2

/-- Totality of the diagnostics conversion: every diagnostic becomes
exactly one decoration or one marker. -/
theorem createMarkersAndDecorationsGo_length (idx : Nat)
    (ds : List Diagnostic) :
    (createMarkersAndDecorationsGo idx ds).1.length +
      (createMarkersAndDecorationsGo idx ds).2.length = ds.length := by
  induction ds generalizing idx with
  | nil => rfl
  | cons d rest ih =>
      simp only [createMarkersAndDecorationsGo]
      by_cases h : d.severity ≠ DiagnosticSeverity.Error
      · simp only [if_pos h, List.length_cons]
        have := ih (idx + 1)
        omega
      · simp only [if_neg h, List.length_cons]
        have := ih (idx + 1)
        omega

/-! ### Claim theorems -/

/-- C6: for the single input diagnostic with severity `warning`, range
`[(2,0),(2,5))` and message `"m"`, `createMarkersAndDecorations`
produces zero markers and exactly one decoration whose range is lines
3 to 3, columns 1 to 6 (every zero-based coordinate incremented by 1),
with glyph class `"diagnostic-warning"` and hover message `"m"`. -/
theorem warning_scenario_single_decoration :
    createMarkersAndDecorations
        [{ severity := DiagnosticSeverity.Warning,
           range := { start := { line := 2, character := 0 },
                      stop := { line := 2, character := 5 } },
           message := "m" }] =
      ([{ id := "diagnostic-warning-0", ownerId := 0,
          range := { startLineNumber := 3, startColumn := 1,
                     endLineNumber := 3, endColumn := 6 },
          options := { glyphMarginClassName := "diagnostic-warning",
                       glyphMarginHoverMessage := "m" } }], []) := rfl

/-- The two-diagnostic input of the severity-index scenario: an error
diagnostic followed by a hint diagnostic. -/
def errorThenHint : List Diagnostic :=
  [{ severity := DiagnosticSeverity.Error,
     range := ⟨⟨0, 0⟩, ⟨0, 1⟩⟩, message := "e" },
   { severity := DiagnosticSeverity.Hint,
     range := ⟨⟨1, 1⟩, ⟨1, 2⟩⟩, message := "h" }]

/-- C10: the index in a decoration's identifier
`"<severityClass>-<index>"` is the diagnostic's position in the full
input list, not among the non-error diagnostics: the input
`[error, hint]` yields exactly one marker and exactly one decoration,
whose identifier is `"diagnostic-hint-1"`. -/
theorem decoration_index_counts_full_list :
    (createMarkersAndDecorations errorThenHint).1.map ModelDecoration.id
        = ["diagnostic-hint-1"] ∧
    (createMarkersAndDecorations errorThenHint).2.length = 1 := by
  constructor <;> rfl

/-- C5 counterexample: the single diagnostic with unrecognized severity
4 produces no marker at all and one glyph decoration (with the default
class `"diagnostic-warning"`), contradicting the claim that an
unrecognized severity is emitted as a blocking marker and not as a
glyph decoration. -/
theorem unrecognized_severity_no_marker_counterexample :
    (createMarkersAndDecorations
        [{ severity := 4, range := ⟨⟨0, 0⟩, ⟨0, 1⟩⟩, message := "w" }]).2 = [] ∧
    (createMarkersAndDecorations
        [{ severity := 4, range := ⟨⟨0, 0⟩, ⟨0, 1⟩⟩, message := "w" }]).1.map
        (fun d => d.options.glyphMarginClassName) = ["diagnostic-warning"] := by
  constructor <;> rfl

/-- C5 (amended): a diagnostic whose severity is unrecognized takes the
non-error branch and is emitted as a glyph decoration with the default
class `"diagnostic-warning"`, not as a marker; no diagnostic is
dropped — decorations and markers together number exactly the input
(the error-severity default in `getSeverity` is unreachable, since only
`Error`-severity diagnostics reach it). -/
theorem unrecognized_severity_becomes_decoration
    (sev : Nat) (r : DiagRange) (msg : String)
    (h1 : sev ≠ DiagnosticSeverity.Error) (h2 : sev ≠ DiagnosticSeverity.Warning)
    (h3 : sev ≠ DiagnosticSeverity.Information) (h4 : sev ≠ DiagnosticSeverity.Hint) :
    createMarkersAndDecorations [{ severity := sev, range := r, message := msg }] =
      ([{ id := "diagnostic-warning-0", ownerId := 0,
          range := { startLineNumber := r.start.line + 1,
                     startColumn := r.start.character + 1,
                     endLineNumber := r.stop.line + 1,
                     endColumn := r.stop.character + 1 },
          options := { glyphMarginClassName := "diagnostic-warning",
                       glyphMarginHoverMessage := msg } }], []) ∧
    ∀ ds : List Diagnostic,
      (createMarkersAndDecorations ds).1.length +
        (createMarkersAndDecorations ds).2.length = ds.length := by
  constructor
  · simp [createMarkersAndDecorations, createMarkersAndDecorationsGo,
      getSeverityClassName, h1, h2, h3, h4]
    rfl
  · intro ds
    exact createMarkersAndDecorationsGo_length 0 ds

/-- Witness for the amended C5 theorem at severity 4. -/
theorem unrecognized_severity_becomes_decoration_witness :
    createMarkersAndDecorations
        [{ severity := 4, range := ⟨⟨0, 0⟩, ⟨0, 1⟩⟩, message := "w" }] =
      ([{ id := "diagnostic-warning-0", ownerId := 0,
          range := { startLineNumber := 1, startColumn := 1,
                     endLineNumber := 1, endColumn := 2 },
          options := { glyphMarginClassName := "diagnostic-warning",
                       glyphMarginHoverMessage := "w" } }], []) :=
  (unrecognized_severity_becomes_decoration 4 ⟨⟨0, 0⟩, ⟨0, 1⟩⟩ "w"
    (by decide) (by decide) (by decide) (by decide)).1

/-- C2: `getModel` is idempotent — a repeated lookup with no intervening
removal returns the same handle and the same state — and a
`createModel` request for an identifier already in the cache returns
nothing and leaves the state unchanged (no second buffer). -/
theorem getModel_idempotent_no_duplicate (uri : String) (s : EditorState) :
    getModel uri (getModel uri s).2 = getModel uri s ∧
    ((mlookup s.models uri).isSome →
      ∀ file? : Option File, createModel uri file? s = (none, s)) := by
  constructor
  · cases hm : mlookup s.models uri with
    | some m => simp [getModel, hm]
    | none =>
        cases hf : mlookup s.files uri with
        | none => simp [getModel, createModel, hm, hf, Option.orElse]
        | some f =>
            simp [getModel, createModel, hm, hf, Option.orElse,
              mlookup_mset_self]
  · intro h file?
    simp [createModel, h]

/-- A concrete service state with the model, decorations and markers of
resource `"a"` populated. -/
def sampleState : EditorState :=
  { files := [("a", { uri := "a", content := "x", language := "yaml",
                      modified := false })]
    models := [("a", { ref := 0, uri := "a", content := "x",
                       language := "yaml" })]
    viewStates := []
    decorations := [("a", [0])]
    widget := some
      { model := none
        viewState := 0
        markers := [("a", [{ startLineNumber := 1, startColumn := 1,
                             endLineNumber := 1, endColumn := 2,
                             severity := 8, message := "e" }])]
        visible := [(0, { id := "diagnostic-hint-0", ownerId := 0,
                          range := { startLineNumber := 2, startColumn := 2,
                                     endLineNumber := 2, endColumn := 3 },
                          options := { glyphMarginClassName := "diagnostic-hint",
                                       glyphMarginHoverMessage := "h" } })]
        nextDecoHandle := 1 }
    nextModelRef := 1
    socketSent := []
    localStorage := none }

/-- Witness for the C2 theorem: on `sampleState`, whose cache holds a
model for `"a"`, a creation request for `"a"` returns nothing and
leaves the state unchanged. -/
theorem getModel_idempotent_no_duplicate_witness :
    createModel "a" none sampleState = (none, sampleState) :=
  (getModel_idempotent_no_duplicate "a" sampleState).2 (by decide) none

/-- C4 counterexample: handling `fs.file.remove` for `"a"` on
`sampleState` evicts the model but leaves `"a"`'s cached decoration
handle list and the widget (its markers and visible decorations)
untouched, contradicting the claim that after the event no decorations
for the resource remain visible or cached. -/
theorem fileRemove_keeps_decorations_counterexample :
    mlookup (onFileRemove "a" sampleState).models "a" = none ∧
    mlookup (onFileRemove "a" sampleState).decorations "a" = some [0] ∧
    (onFileRemove "a" sampleState).widget = sampleState.widget := by
  refine ⟨?_, ?_, ?_⟩ <;> rfl

/-- C4 (amended): the `fs.file.remove` handler only disposes and evicts
the resource's buffer handle — the decoration cache and the widget are
untouched by it; markers and decorations for a resource are cleared by
the separate `documents.document.remove` handler, which replaces the
marker list with `[]`, stores the returned empty decoration handle list
under the resource's id, and removes the previously stored handles from
the visible set. -/
theorem fileRemove_evicts_only_documentRemove_clears
    (uri : String) (s : EditorState)
    (hnd : (s.models.map Prod.fst).Nodup)
    (doc : Document) (m : TextModel) (w : Widget)
    (hm : mlookup s.models doc.uri = some m)
    (hw : s.widget = some w) :
    (mlookup (onFileRemove uri s).models uri = none ∧
     (onFileRemove uri s).decorations = s.decorations ∧
     (onFileRemove uri s).widget = s.widget) ∧
    (∃ w2 : Widget,
      (onDocumentRemove doc s).widget = some w2 ∧
      mlookup w2.markers doc.uri = some [] ∧
      mlookup (onDocumentRemove doc s).decorations doc.uri = some [] ∧
      ∀ h ∈ (mlookup s.decorations doc.uri).getD [],
        mlookup w2.visible h = none) := by
  constructor
  · unfold onFileRemove removeModel
    cases hr : mlookup s.models uri with
    | none => exact ⟨hr, rfl, rfl⟩
    | some m' => exact ⟨mlookup_mremove_self s.models uri hnd, rfl, rfl⟩
  · unfold onDocumentRemove removeMarkersAndDecorations
    simp only [getModel, hm, hw, deltaDecorations, setModelMarkers,
      freshHandles, List.length_nil, List.zip_nil_right, List.append_nil]
    refine ⟨_, rfl, ?_, ?_, ?_⟩
    · exact mlookup_mset_self w.markers doc.uri []
    · exact mlookup_mset_self s.decorations doc.uri []
    · intro h hmem
      exact mlookup_filter_mem_none w.visible _ h hmem

/-- Witness for the amended C4 theorem on `sampleState`. -/
theorem fileRemove_evicts_only_documentRemove_clears_witness :
    mlookup (onFileRemove "a" sampleState).models "a" = none ∧
    mlookup (onDocumentRemove ⟨"a", []⟩ sampleState).decorations "a" = some [] := by
  have h := fileRemove_evicts_only_documentRemove_clears "a" sampleState
    (by decide) ⟨"a", []⟩ { ref := 0, uri := "a", content := "x", language := "yaml" }
    { model := none
      viewState := 0
      markers := [("a", [{ startLineNumber := 1, startColumn := 1,
                           endLineNumber := 1, endColumn := 2,
                           severity := 8, message := "e" }])]
      visible := [(0, { id := "diagnostic-hint-0", ownerId := 0,
                        range := { startLineNumber := 2, startColumn := 2,
                                   endLineNumber := 2, endColumn := 3 },
                        options := { glyphMarginClassName := "diagnostic-hint",
                                     glyphMarginHoverMessage := "h" } })]
      nextDecoHandle := 1 } rfl rfl
  obtain ⟨⟨h1, _, _⟩, ⟨w2, hw2, hmk, hdec, hvis⟩⟩ := h
  exact ⟨h1, hdec⟩

/-- The widget after one `applyMarkersAndDecorations` body: markers for
`uri` fully replaced, old decoration handles filtered out of the
visible set, the new decorations installed under fresh handles. -/
def applyWidget (uri : String) (decos : List ModelDecoration)
    (mk : List MarkerData) (old : List Nat) (w : Widget) : Widget :=
  { w with
      markers := mset w.markers uri mk
      visible := w.visible.filter (fun p => ¬ p.1 ∈ old) ++
        (freshHandles w.nextDecoHandle decos.length).zip decos
      nextDecoHandle := w.nextDecoHandle + decos.length }

/-- The state after one `applyMarkersAndDecorations` with both guards
satisfied (see `applyMarkersAndDecorations_eq`). -/
def applyResult (uri : String) (decos : List ModelDecoration)
    (mk : List MarkerData) (w : Widget) (s : EditorState) : EditorState :=
  { s with
      widget := some
        (applyWidget uri decos mk ((mlookup s.decorations uri).getD []) w)
      decorations := mset s.decorations uri
        (freshHandles w.nextDecoHandle decos.length) }

/-- When the model for `uri` is cached and the widget exists,
`applyMarkersAndDecorations` is exactly `applyResult`. -/
theorem applyMarkersAndDecorations_eq
    (uri : String) (d : List Diagnostic) (s : EditorState)
    (m : TextModel) (w : Widget)
    (decos : List ModelDecoration) (mk : List MarkerData)
    (hm : mlookup s.models uri = some m)
    (hw : s.widget = some w)
    (hcd : createMarkersAndDecorations d = (decos, mk)) :
    applyMarkersAndDecorations ⟨uri, d⟩ s = applyResult uri decos mk w s := by
  unfold applyMarkersAndDecorations applyResult applyWidget
  simp [getModel, hm, hw, hcd, setModelMarkers, deltaDecorations]

/-- After the second application's filter, no key at or above the
original fresh-handle counter can be found in the surviving prefix. -/
theorem mlookup_second_prefix_none
    (w : Widget) (old0 h1 : List Nat) (decos1 : List ModelDecoration)
    (hb : ∀ p ∈ w.visible, p.1 < w.nextDecoHandle)
    (h : Nat) (hh : w.nextDecoHandle ≤ h) :
    mlookup ((w.visible.filter (fun p => ¬ p.1 ∈ old0) ++ h1.zip decos1).filter
      (fun p => ¬ p.1 ∈ h1)) h = none := by
  apply mlookup_eq_none_of_not_mem_keys
  intro hmem
  obtain ⟨p, hp, hph⟩ := List.mem_map.mp hmem
  have hp1 := List.mem_filter.mp hp
  have hpc := hp1.2
  rcases List.mem_append.mp hp1.1 with hA | hB
  · have hlt := hb p (List.mem_filter.mp hA).1
    omega
  · obtain ⟨a, b⟩ := p
    have hmemz := (List.of_mem_zip hB).1
    simp only [decide_eq_true_eq] at hpc
    exact hpc hmemz

/-- C3: applying diagnostics `d1` and then `d2` for the same resource
leaves exactly the markers and decorations derived from `d2` visible:
the resource's marker set is the full replacement derived from `d2`,
the second delta is computed against the handle list stored by the
first application, the returned fresh handle list is stored under the
id, those handles resolve in the visible set to exactly `d2`'s
decorations, and none of the handles installed for `d1` remain
visible. -/
theorem apply_then_apply_replaces
    (uri : String) (d1 d2 : List Diagnostic) (s : EditorState)
    (m : TextModel) (w : Widget)
    (hm : mlookup s.models uri = some m)
    (hw : s.widget = some w)
    (hb : ∀ p ∈ w.visible, p.1 < w.nextDecoHandle) :
    ∃ w4 : Widget,
      (applyMarkersAndDecorations ⟨uri, d2⟩
          (applyMarkersAndDecorations ⟨uri, d1⟩ s)).widget = some w4 ∧
      mlookup w4.markers uri = some (createMarkersAndDecorations d2).2 ∧
      mlookup (applyMarkersAndDecorations ⟨uri, d2⟩
          (applyMarkersAndDecorations ⟨uri, d1⟩ s)).decorations uri =
        some (freshHandles
          (w.nextDecoHandle + (createMarkersAndDecorations d1).1.length)
          (createMarkersAndDecorations d2).1.length) ∧
      (freshHandles (w.nextDecoHandle + (createMarkersAndDecorations d1).1.length)
          (createMarkersAndDecorations d2).1.length).map
          (fun h => mlookup w4.visible h) =
        (createMarkersAndDecorations d2).1.map some ∧
      ∀ h ∈ freshHandles w.nextDecoHandle (createMarkersAndDecorations d1).1.length,
        mlookup w4.visible h = none := by
  rcases hcd1 : createMarkersAndDecorations d1 with ⟨decos1, markers1⟩
  rcases hcd2 : createMarkersAndDecorations d2 with ⟨decos2, markers2⟩
  simp only [hcd1, hcd2]
  rw [applyMarkersAndDecorations_eq uri d1 s m w decos1 markers1 hm hw hcd1]
  rw [applyMarkersAndDecorations_eq uri d2 (applyResult uri decos1 markers1 w s) m
    (applyWidget uri decos1 markers1 ((mlookup s.decorations uri).getD []) w)
    decos2 markers2 hm rfl hcd2]
  refine ⟨_, rfl, ?_, ?_, ?_, ?_⟩
  · simp [applyResult, applyWidget, mlookup_mset_self]
  · simp [applyResult, applyWidget, mlookup_mset_self]
  · simp only [applyResult, applyWidget, mlookup_mset_self, Option.getD_some]
    have hstep : ∀ h ∈ freshHandles (w.nextDecoHandle + decos1.length) decos2.length,
        mlookup
          ((w.visible.filter
              (fun p => ¬ p.1 ∈ (mlookup s.decorations uri).getD []) ++
            (freshHandles w.nextDecoHandle decos1.length).zip decos1).filter
            (fun p => ¬ p.1 ∈ freshHandles w.nextDecoHandle decos1.length) ++
            (freshHandles (w.nextDecoHandle + decos1.length) decos2.length).zip decos2)
          h =
        mlookup
          ((freshHandles (w.nextDecoHandle + decos1.length) decos2.length).zip decos2) h := by
      intro h hmem
      have hge := (mem_freshHandles h (w.nextDecoHandle + decos1.length) decos2.length).mp hmem
      rw [mlookup_append,
        mlookup_second_prefix_none w ((mlookup s.decorations uri).getD [])
          (freshHandles w.nextDecoHandle decos1.length) decos1 hb h (by omega)]
      rfl
    calc (freshHandles (w.nextDecoHandle + decos1.length) decos2.length).map _
        = (freshHandles (w.nextDecoHandle + decos1.length) decos2.length).map
            (fun h => mlookup
              ((freshHandles (w.nextDecoHandle + decos1.length) decos2.length).zip decos2) h) :=
          List.map_congr_left hstep
      _ = decos2.map some := map_mlookup_zip_freshHandles _ decos2
  · simp only [applyResult, applyWidget, mlookup_mset_self, Option.getD_some]
    intro h hmem
    have hlt := (mem_freshHandles h w.nextDecoHandle decos1.length).mp hmem
    rw [mlookup_append,
      mlookup_filter_mem_none _ (freshHandles w.nextDecoHandle decos1.length) h hmem,
      mlookup_zip_none_of_not_mem _ decos2 h (by
        intro hc
        have := (mem_freshHandles h (w.nextDecoHandle + decos1.length) decos2.length).mp hc
        omega)]
    rfl

/-- Witness for the C3 theorem on `sampleState`: applying a hint
diagnostic, then a warning diagnostic for `"a"` stores the second
application's fresh handle list (handle 2, since `sampleState`'s
counter starts at 1 and the first application consumed handle 1). -/
theorem apply_then_apply_replaces_witness :
    mlookup (applyMarkersAndDecorations
        ⟨"a", [{ severity := DiagnosticSeverity.Warning,
                 range := ⟨⟨2, 0⟩, ⟨2, 5⟩⟩, message := "m" }]⟩
        (applyMarkersAndDecorations
          ⟨"a", [{ severity := DiagnosticSeverity.Hint,
                   range := ⟨⟨1, 1⟩, ⟨1, 2⟩⟩, message := "h" }]⟩
          sampleState)).decorations "a" = some [2] := by
  obtain ⟨w4, hw4, hmk, hdec, hmap, hgone⟩ :=
    apply_then_apply_replaces "a"
      [{ severity := DiagnosticSeverity.Hint,
         range := ⟨⟨1, 1⟩, ⟨1, 2⟩⟩, message := "h" }]
      [{ severity := DiagnosticSeverity.Warning,
         range := ⟨⟨2, 0⟩, ⟨2, 5⟩⟩, message := "m" }]
      sampleState { ref := 0, uri := "a", content := "x", language := "yaml" }
      { model := none
        viewState := 0
        markers := [("a", [{ startLineNumber := 1, startColumn := 1,
                             endLineNumber := 1, endColumn := 2,
                             severity := 8, message := "e" }])]
        visible := [(0, { id := "diagnostic-hint-0", ownerId := 0,
                          range := { startLineNumber := 2, startColumn := 2,
                                     endLineNumber := 2, endColumn := 3 },
                          options := { glyphMarginClassName := "diagnostic-hint",
                                       glyphMarginHoverMessage := "h" } })]
        nextDecoHandle := 1 }
      rfl rfl (by decide)
  exact hdec


/-- C7: on a tab switch the bound buffer's view state is saved under the
previous active resource's identifier before rebinding, so switching
from resource `a` to `b` and back to `a` rebinds `a`'s model and
restores exactly the snapshot the widget held when focus left `a`; and
when the new resource's handle cannot be obtained (no cached model and
no file to create one from), the switch leaves the widget binding
unchanged. -/
theorem tab_switch_roundtrip
    (a b : String) (s : EditorState) (w : Widget) (mA mB : TextModel)
    (hw : s.widget = some w) (hbound : w.model = some mA)
    (hA : mlookup s.models a = some mA) (hAuri : mA.uri = a)
    (hB : mlookup s.models b = some mB) (hBuri : mB.uri = b)
    (hab : a ≠ b) :
    (∃ w2 : Widget,
      (onChangeTab a (onChangeTab b s)).widget = some w2 ∧
      w2.model = some mA ∧ w2.viewState = w.viewState) ∧
    (∀ (uri : String) (s' : EditorState),
      mlookup s'.models uri = none → mlookup s'.files uri = none →
      (onChangeTab uri s').widget = s'.widget) := by
  constructor
  · have hba : b ≠ a := Ne.symm hab
    have hcm : getCurrentModel s = some mA := by
      simp [getCurrentModel, hw, hbound]
    have hfirst : ∃ vs1 : Nat, onChangeTab b s =
        { s with viewStates := mset s.viewStates a w.viewState,
                 widget := some { w with model := some mB, viewState := vs1 } } := by
      cases hvb : mlookup s.viewStates b with
      | none =>
          refine ⟨w.viewState, ?_⟩
          simp only [onChangeTab, hcm, hw, hAuri, getModel, hB, hBuri,
            mlookup_mset_ne s.viewStates a b w.viewState hab, hvb]
      | some vsB =>
          refine ⟨vsB, ?_⟩
          simp only [onChangeTab, hcm, hw, hAuri, getModel, hB, hBuri,
            mlookup_mset_ne s.viewStates a b w.viewState hab, hvb]
    obtain ⟨vs1, h1⟩ := hfirst
    rw [h1]
    refine ⟨{ w with model := some mA, viewState := w.viewState }, ?_, rfl, rfl⟩
    have hcm2 : getCurrentModel
        { s with viewStates := mset s.viewStates a w.viewState,
                 widget := some { w with model := some mB, viewState := vs1 } } = some mB := by
      simp [getCurrentModel]
    simp only [onChangeTab, hcm2, getModel, hA, hAuri, hBuri,
      mlookup_mset_ne (mset s.viewStates a w.viewState) b a vs1 hba,
      mlookup_mset_self]
  · intro uri s' h1 h2
    have hgm : ∀ s0 : EditorState, s0.models = s'.models → s0.files = s'.files →
        getModel uri s0 = (none, s0) := by
      intro s0 e1 e2
      simp [getModel, createModel, e1, e2, h1, h2, Option.orElse]
    cases hcm : getCurrentModel s' with
    | none =>
        cases hsw : s'.widget with
        | none =>
            simp only [onChangeTab, hcm, hsw]
            rw [hgm s' rfl rfl]
            simp [hsw]
        | some w' =>
            simp only [onChangeTab, hcm, hsw]
            rw [hgm s' rfl rfl]
            simp [hsw]
    | some mOld =>
        cases hsw : s'.widget with
        | none =>
            simp only [onChangeTab, hcm, hsw]
            rw [hgm s' rfl rfl]
            simp [hsw]
        | some w' =>
            simp only [onChangeTab, hcm, hsw]
            have hgoal := hgm { s' with viewStates := mset s'.viewStates mOld.uri w'.viewState, widget := some w' } rfl rfl
            rw [hgoal]

/-- A concrete two-resource state for the tab-switch round trip: the
widget is bound to `"a"`'s model and holds view state 7. -/
def roundtripState : EditorState :=
  { files := []
    models := [("a", { ref := 0, uri := "a", content := "x", language := "yaml" }),
               ("b", { ref := 1, uri := "b", content := "y", language := "yaml" })]
    viewStates := []
    decorations := []
    widget := some { model := some { ref := 0, uri := "a", content := "x",
                                     language := "yaml" }
                     viewState := 7, markers := [], visible := []
                     nextDecoHandle := 0 }
    nextModelRef := 2
    socketSent := []
    localStorage := none }

/-- Witness for the C7 theorem on `roundtripState`: switching to `"b"`
and back restores view state 7 for `"a"`, and a switch to an unknown
resource leaves the widget unchanged. -/
theorem tab_switch_roundtrip_witness :
    ((onChangeTab "a" (onChangeTab "b" roundtripState)).widget.map
        Widget.viewState = some 7) ∧
    (onChangeTab "c" roundtripState).widget = roundtripState.widget := by
  obtain ⟨⟨w2, hw2, hmod, hvs⟩, hnoop⟩ :=
    tab_switch_roundtrip "a" "b" roundtripState
      { model := some { ref := 0, uri := "a", content := "x", language := "yaml" }
        viewState := 7, markers := [], visible := [], nextDecoHandle := 0 }
      { ref := 0, uri := "a", content := "x", language := "yaml" }
      { ref := 1, uri := "b", content := "y", language := "yaml" }
      rfl rfl rfl rfl rfl rfl (by decide)
  refine ⟨?_, hnoop "c" roundtripState rfl rfl⟩
  rw [hw2]
  simp [hvs]

/-- `updateFile` touches only the files registry. -/
theorem updateFile_frame (uri : String) (p : FilePatch) (s : EditorState) :
    (updateFile uri p s).socketSent = s.socketSent ∧
    (updateFile uri p s).widget = s.widget := by
  unfold updateFile
  cases mlookup s.files uri <;> exact ⟨rfl, rfl⟩

/-- `setEditorModelValue` touches only the widget. -/
theorem setEditorModelValue_frame (c : String) (s : EditorState) :
    (setEditorModelValue c s).socketSent = s.socketSent ∧
    (setEditorModelValue c s).files = s.files := by
  unfold setEditorModelValue
  cases hw : s.widget with
  | none => exact ⟨rfl, rfl⟩
  | some w => cases hm : w.model <;> simp [hm]

/-- C9: `updateState` is a strict no-op — files, widget and socket all
untouched — when the content is not a string, or equals the `asyncapi`
file's current content, or no language can be determined (neither the
patch nor `retrieveLangauge` yields one); otherwise the socket send
happens exactly when `sendToServer` is true, and the widget is
untouched whenever `updateModel` is false or the editor does not
exist. -/
theorem updateState_frame
    (retrieveLangauge : String → Option String)
    (updateModel sendToServer : Bool) (file : FilePatch)
    (s : EditorState) (c : String) :
    (updateState retrieveLangauge .nonString updateModel sendToServer file s = s) ∧
    ((mlookup s.files "asyncapi").map File.content = some c →
      updateState retrieveLangauge (.str c) updateModel sendToServer file s = s) ∧
    ((mlookup s.files "asyncapi").map File.content ≠ some c →
      (file.language).orElse (fun _ => retrieveLangauge c) = none →
      updateState retrieveLangauge (.str c) updateModel sendToServer file s = s) ∧
    ((mlookup s.files "asyncapi").map File.content ≠ some c →
      ((file.language).orElse (fun _ => retrieveLangauge c)).isSome →
      ((sendToServer = false →
          (updateState retrieveLangauge (.str c) updateModel sendToServer file s).socketSent
            = s.socketSent) ∧
       (sendToServer = true →
          (updateState retrieveLangauge (.str c) updateModel sendToServer file s).socketSent
            = s.socketSent ++ [c]) ∧
       ((updateModel = false ∨ s.widget = none) →
          (updateState retrieveLangauge (.str c) updateModel sendToServer file s).widget
            = s.widget))) := by
  refine ⟨rfl, ?_, ?_, ?_⟩
  · intro h
    simp [updateState, h]
  · intro h hnone
    simp [updateState, h, hnone]
  · intro h hsome
    obtain ⟨lang, hlang⟩ := Option.isSome_iff_exists.mp hsome
    refine ⟨?_, ?_, ?_⟩
    · intro hst
      subst hst
      simp only [updateState, if_neg h, hlang, Bool.false_eq_true, if_false]
      rw [(updateFile_frame _ _ _).1]
      split
      · exact (setEditorModelValue_frame _ _).1
      · rfl
    · intro hst
      subst hst
      simp only [updateState, if_neg h, hlang, if_true]
      rw [(updateFile_frame _ _ _).1]
      split
      · exact (setEditorModelValue_frame _ _).1
      · rfl
    · intro hcase
      simp only [updateState, if_neg h, hlang]
      rw [(updateFile_frame _ _ _).2]
      have hw1 : (if sendToServer = true
          then { s with socketSent := s.socketSent ++ [c] } else s).widget = s.widget := by
        split <;> rfl
      rcases hcase with hum | hwn
      · subst hum
        rw [if_neg]
        · exact hw1
        · simp
      · rw [if_neg]
        · exact hw1
        · intro hcon
          have h2 : (if sendToServer = true
              then { s with socketSent := s.socketSent ++ [c] } else s).widget = none := by
            rw [hw1, hwn]
          rw [h2] at hcon
          exact absurd hcon.2 (by simp)

/-- Witness for the C9 theorem on `sampleState` (whose registry has no
`asyncapi` entry, so the current content differs from `"new"`): with
`updateModel` off and `sendToServer` on, the content is sent to the
socket and the widget is untouched. -/
theorem updateState_frame_witness :
    (updateState (fun _ => some "yaml") (.str "new") false true
        ⟨none, none, none⟩ sampleState).socketSent = ["new"] ∧
    (updateState (fun _ => some "yaml") (.str "new") false true
        ⟨none, none, none⟩ sampleState).widget = sampleState.widget := by
  obtain ⟨h1, h2, h3, h4⟩ := updateState_frame (fun _ => some "yaml")
    false true ⟨none, none, none⟩ sampleState "new"
  obtain ⟨ha, hb, hc⟩ := h4 (by decide) (by decide)
  exact ⟨hb rfl, hc (Or.inl rfl)⟩

/-- Coalescing: a run over events that all arrive inside the pending
window fires nothing, updates the buffer to the last event's content,
and leaves a timer pending for one delay after the last event. -/
theorem runEdits_within (delay : Nat) (edits : List (Nat × String)) :
    ∀ (t : Nat) (c : String) (st : SyncState),
      withinWindow delay ((t, c) :: edits) = true →
      (st.pending = none ∨ ∃ p, st.pending = some p ∧ t < p) →
      runEdits delay ((t, c) :: edits) st =
        { content := (edits.foldl (fun _ e => e) (t, c)).2
          pending := some ((edits.foldl (fun _ e => e) (t, c)).1 + delay)
          parseCalls := st.parseCalls } := by
  induction edits with
  | nil =>
      intro t c st hw hp
      have hstep : stepEdit delay t c st =
          { content := c, pending := some (t + delay),
            parseCalls := st.parseCalls } := by
        rcases hp with hnone | ⟨p, hs, hlt⟩
        · simp [stepEdit, hnone]
        · simp [stepEdit, hs, Nat.not_le.mpr hlt]
      simp [runEdits, hstep]
  | cons e rest ih =>
      intro t c st hw hp
      obtain ⟨t2, c2⟩ := e
      simp only [withinWindow, Bool.and_eq_true, decide_eq_true_eq] at hw
      have hstep : stepEdit delay t c st =
          { content := c, pending := some (t + delay),
            parseCalls := st.parseCalls } := by
        rcases hp with hnone | ⟨p, hs, hlt⟩
        · simp [stepEdit, hnone]
        · simp [stepEdit, hs, Nat.not_le.mpr hlt]
      have hrun : runEdits delay ((t, c) :: (t2, c2) :: rest) st =
          runEdits delay ((t2, c2) :: rest) (stepEdit delay t c st) := rfl
      rw [hrun, hstep,
        ih t2 c2 { content := c, pending := some (t + delay),
                   parseCalls := st.parseCalls }
          hw.2 (Or.inr ⟨t + delay, rfl, hw.1.2⟩)]
      rfl

/-- C1: any nonempty sequence of content-change events falling within
one debounce window, run from an idle synchronizer, dispatches exactly
one parse call, fired one delay after the last event's time and
carrying the buffer content as of the last event. -/
theorem content_changes_coalesce
    (delay t : Nat) (c c₀ : String) (edits : List (Nat × String))
    (h : withinWindow delay ((t, c) :: edits) = true) :
    settle (runEdits delay ((t, c) :: edits)
        { content := c₀, pending := none, parseCalls := [] }) =
      { content := (edits.foldl (fun _ e => e) (t, c)).2
        pending := none
        parseCalls := [((edits.foldl (fun _ e => e) (t, c)).1 + delay,
                        (edits.foldl (fun _ e => e) (t, c)).2)] } := by
  rw [runEdits_within delay edits t c
    { content := c₀, pending := none, parseCalls := [] } h (Or.inl rfl)]
  simp [settle]

/-- Witness for the C1 theorem: edits at t = 0, 10, 20, 30 with a
300 ms debounce produce the single parse call (330, "c4"). -/
theorem content_changes_coalesce_witness :
    settle (runEdits 300 [(0, "c1"), (10, "c2"), (20, "c3"), (30, "c4")]
        { content := "", pending := none, parseCalls := [] }) =
      { content := "c4", pending := none, parseCalls := [(330, "c4")] } := by
  have h := content_changes_coalesce 300 0 "c1" ""
    [(10, "c2"), (20, "c3"), (30, "c4")] (by decide)
  simpa using h

/-- C8 counterexample: build the subscription under a 300 ms saving
delay, update the settings to a 100 ms saving delay without touching
the governance sub-tree, then edit at t = 0: the flush is scheduled at
t = 300, not t = 100 — the delay was not re-read from the current
settings (which say 100) when scheduling. -/
theorem savingDelay_not_reread_counterexample :
    ((sysEdit 0 "x" (onSettingsUpdate ⟨⟨false, 100⟩, 0⟩
        (configureEditor ⟨⟨false, 300⟩, 0⟩
          { content := "", pending := none, parseCalls := [] }))).settings.editor.savingDelay
      = 100) ∧
    ((sysEdit 0 "x" (onSettingsUpdate ⟨⟨false, 100⟩, 0⟩
        (configureEditor ⟨⟨false, 300⟩, 0⟩
          { content := "", pending := none, parseCalls := [] }))).sync.pending
      = some 300) ∧
    (some 300 ≠ (some 100 : Option Nat)) := by
  exact ⟨rfl, rfl, by decide⟩

/-- C8 (amended): the debounce delay is captured when the content-change
subscription is built — at `configureEditor` it is the then-current
saving delay, and a settings update re-captures it only when the
governance sub-tree changed (the subscription is then disposed and
rebuilt); an update whose governance sub-tree is unchanged keeps the
previously captured delay no matter its saving delay, and every edit
schedules its flush with the captured delay. -/
theorem savingDelay_captured_at_subscription
    (settings ns : SettingsState) (st : SyncState) (sys : SyncSystem)
    (t : Nat) (c : String) :
    ((configureEditor settings st).subDelay = settings.editor.savingDelay) ∧
    (ns.governance = sys.settings.governance →
      (onSettingsUpdate ns sys).subDelay = sys.subDelay) ∧
    (ns.governance ≠ sys.settings.governance →
      (onSettingsUpdate ns sys).subDelay = ns.editor.savingDelay) ∧
    ((sysEdit t c sys).sync.pending = some (t + sys.subDelay)) := by
  refine ⟨rfl, ?_, ?_, rfl⟩
  · intro h
    simp [onSettingsUpdate, h]
  · intro h
    simp [onSettingsUpdate, h]

/-- Witness for the amended C8 theorem: a governance change from 0 to 1
rebuilds the subscription, which captures the new 100 ms delay. -/
theorem savingDelay_captured_at_subscription_witness :
    (onSettingsUpdate ⟨⟨false, 100⟩, 1⟩
        (configureEditor ⟨⟨false, 300⟩, 0⟩
          { content := "", pending := none, parseCalls := [] })).subDelay = 100 := by
  have h := savingDelay_captured_at_subscription ⟨⟨false, 300⟩, 0⟩ ⟨⟨false, 100⟩, 1⟩
    { content := "", pending := none, parseCalls := [] }
    (configureEditor ⟨⟨false, 300⟩, 0⟩
      { content := "", pending := none, parseCalls := [] }) 0 "x"
  exact h.2.2.1 (by decide)
